import Mathlib

/-!
Verification development for the wavesplatform state-service repository.

The code under scrutiny is a Rust service that indexes blockchain key/value
state entries, compiles a typed filter language into SQL WHERE-clause text,
tokenizes compound keys into positional fragments, and runs an ingestion
loop advancing a persisted watermark height.

Shallow embedding conventions:
  - Rust byte strings are modelled as List Nat (one Nat per byte) where the
    function operates on raw bytes (pg_escape), and as Lean String where the
    function operates on textual content (the SQL compiler, the codec).
  - i32 and i64 values are modelled as Int; the one place a cast
    i32-to-u32 occurs (the daemon watermark) applies an explicit mod 2^32.
  - Fallible code returns Except or Option.
  - Database and network side effects are out of scope: functions that
    assemble SQL text or decide control flow are embedded, the socket and
    the connection pool are not.
-/

set_option maxRecDepth 10000

/-! ## src/text_utils.rs : pg_escape

The Rust function walks the byte slice with a lazily allocated owned buffer:
the buffer stays None while no special byte has been seen (so the borrowed
input is returned unchanged), and on the first special byte it is seeded
with the bytes before that position. We embed the loop faithfully with the
owned accumulator; seen tracks the prefix of bytes already walked, which is
what bytes[0..pos].to_owned() copies. -/

/-- The match arm table of pg_escape: maps a special byte to the escape
character pushed after the backslash (or after the doubled quote). -/
def escByte (b : Nat) : Option Nat :=
  if b = 0x07 then some 0x61
  else if b = 0x08 then some 0x62
  else if b = 0x09 then some 0x74
  else if b = 0x0a then some 0x6e
  else if b = 0x0b then some 0x76
  else if b = 0x0c then some 0x66
  else if b = 0x0d then some 0x72
  else if b = 0x20 then some 0x20
  else if b = 0x5c then some 0x5c
  else if b = 0x27 then some 0x27
  else none

def pgEscapeGo : Option (List Nat) → List Nat → List Nat → List Nat
  | owned, seen, [] =>
    match owned with
    | some o => o
    | none => seen
  | owned, seen, b :: rest =>
    match escByte b with
    | some s =>
      let o := owned.getD seen
      let o := o ++ [if s = 0x27 then 0x27 else 0x5c, s]
      pgEscapeGo (some o) (seen ++ [b]) rest
    | none =>
      match owned with
      | some o => pgEscapeGo (some (o ++ [b])) (seen ++ [b]) rest
      | none => pgEscapeGo none (seen ++ [b]) rest

/-- Embedding of pg_escape from src/text_utils.rs, at the level of the
UTF-8 byte sequence of the input. -/
def pg_escape (bytes : List Nat) : List Nat :=
  pgEscapeGo none [] bytes

/-- Modelled from the spec words, for the refinement comparison of claim C2:
per byte, the quote is doubled, each of the nine special bytes becomes a
backslash followed by its escape character, every other byte is unchanged. -/
def escapeByteSpec (b : Nat) : List Nat :=
  if b = 0x27 then [0x27, 0x27]
  else if b = 0x07 then [0x5c, 0x61]
  else if b = 0x08 then [0x5c, 0x62]
  else if b = 0x09 then [0x5c, 0x74]
  else if b = 0x0a then [0x5c, 0x6e]
  else if b = 0x0b then [0x5c, 0x76]
  else if b = 0x0c then [0x5c, 0x66]
  else if b = 0x0d then [0x5c, 0x72]
  else if b = 0x20 then [0x5c, 0x20]
  else if b = 0x5c then [0x5c, 0x5c]
  else [b]

lemma escapeByteSpec_of_escByte (b : Nat) :
    escapeByteSpec b = (match escByte b with
      | some s => [if s = 0x27 then 0x27 else 0x5c, s]
      | none => [b]) := by
  by_cases h7 : b = 0x07
  · subst h7; decide
  by_cases h8 : b = 0x08
  · subst h8; decide
  by_cases h9 : b = 0x09
  · subst h9; decide
  by_cases ha : b = 0x0a
  · subst ha; decide
  by_cases hbv : b = 0x0b
  · subst hbv; decide
  by_cases hc : b = 0x0c
  · subst hc; decide
  by_cases hd : b = 0x0d
  · subst hd; decide
  by_cases hsp : b = 0x20
  · subst hsp; decide
  by_cases hbs : b = 0x5c
  · subst hbs; decide
  by_cases hq : b = 0x27
  · subst hq; decide
  simp [escByte, escapeByteSpec, h7, h8, h9, ha, hbv, hc, hd, hsp, hbs, hq]

lemma pgEscapeGo_some (rest : List Nat) : ∀ (o seen : List Nat),
    pgEscapeGo (some o) seen rest = o ++ rest.flatMap escapeByteSpec := by
  induction rest with
  | nil => intro o seen; simp [pgEscapeGo]
  | cons b t ih =>
    intro o seen
    rw [List.flatMap_cons, escapeByteSpec_of_escByte]
    cases hb : escByte b with
    | some s =>
      simp only [pgEscapeGo, hb, Option.getD_some]
      rw [ih]
      simp
    | none =>
      simp only [pgEscapeGo, hb]
      rw [ih]
      simp

lemma pgEscapeGo_none (rest : List Nat) : ∀ (seen : List Nat),
    pgEscapeGo none seen rest = seen ++ rest.flatMap escapeByteSpec := by
  induction rest with
  | nil => intro seen; simp [pgEscapeGo]
  | cons b t ih =>
    intro seen
    rw [List.flatMap_cons, escapeByteSpec_of_escByte]
    cases hb : escByte b with
    | some s =>
      simp only [pgEscapeGo, hb, Option.getD_none]
      rw [pgEscapeGo_some]
      simp
    | none =>
      simp only [pgEscapeGo, hb]
      rw [ih]
      simp

/-- Claim C2: for every input byte sequence, pg_escape doubles every single
quote byte, replaces each of 0x07, 0x08, tab, newline, 0x0b, 0x0c, carriage
return, space and backslash by a backslash followed by the corresponding
escape character, and leaves every other byte (non-ASCII included)
unchanged, in the original order. -/
theorem c2_pg_escape_bytewise (bytes : List Nat) :
    pg_escape bytes = bytes.flatMap escapeByteSpec := by
  unfold pg_escape
  rw [pgEscapeGo_none]
  simp

/-! ## src/data_entries/updates.rs : the key-fragment codec

The Rust code drives a regular expression with nine capture groups, each of
the shape: a dollar separator followed by a possibly empty run of word
characters, or a hash separator followed by a nonempty run of digits and
hyphens. The first group is mandatory and anchored at the start; the eight
following groups are optional and sequential; the end of the text is not
anchored, so trailing unmatched text is ignored. Because the two content
classes never contain a separator, the greedy match never backtracks and
equals the direct tokenizer below. The regex word class is Unicode-aware;
we model its ASCII part (letters, digits, underscore), which the claims and
all counterexamples stay inside. -/

/-- ASCII part of the regex word character class. -/
def wordChar (c : Char) : Bool := c.isAlphanum || c == '_'

/-- The character class of the integer-fragment body: digits and hyphen. -/
def intChar (c : Char) : Bool := c.isDigit || c == '-'

/-- One capture group: consumes one fragment token at the head of the text,
returning the matched text (separator included) and the rest. -/
def fragmentToken : List Char → Option (List Char × List Char)
  | [] => none
  | c :: rest =>
    if c == '$' then
      some ('$' :: rest.takeWhile wordChar, rest.dropWhile wordChar)
    else if c == '#' then
      let ds := rest.takeWhile intChar
      if ds.isEmpty then none
      else some ('#' :: ds, rest.dropWhile intChar)
    else none

/-- The eight optional trailing groups: once one fails to match, all the
following groups are unmatched. -/
def capturesAux : Nat → List Char → List (Option String)
  | 0, _ => []
  | n + 1, s =>
    match fragmentToken s with
    | some (t, rest) => some (String.mk t) :: capturesAux n rest
    | none => List.replicate (n + 1) none

/-- Embedding of RE.captures from src/data_entries/updates.rs: none when
the regex does not match at all (the first group is mandatory), otherwise
the nine group texts, in order, unmatched groups as none. -/
def captures (key : String) : Option (List (Option String)) :=
  match fragmentToken key.toList with
  | some (t, rest) => some (some (String.mk t) :: capturesAux 8 rest)
  | none => none

/-- Embedding of is_suitable_for_index: RE.is_match. -/
def is_suitable_for_index (key : String) : Bool := (captures key).isSome

/-- The capture list of a key that passed is_suitable_for_index; the unwrap
in collect_data_entries is safe there, which the default models. -/
def capturesD (key : String) : List (Option String) :=
  (captures key).getD (List.replicate 9 none)

/-- Group access: Rust caps.get marks both an absent index and an
unmatched group as none. The Rust call caps.get(position + 1) addresses
group number position + 1, which is index position of our group list. -/
def capGet (caps : List (Option String)) (position : Nat) : Option String :=
  (caps[position]?).bind id

/-- Embedding of str starts_with for a one-character pattern. -/
def headIs (fr : String) (sep : Char) : Bool :=
  match fr.toList with
  | c :: _ => c == sep
  | [] => false

/-- Embedding of extract_string_fragment. -/
def extract_string_fragment (caps : List (Option String)) (position : Nat) :
    Option String :=
  match capGet caps position with
  | some fr =>
    if headIs fr '$' then
      some (String.mk (fr.toList.dropWhile (fun c => c == '$')))
    else none
  | none => none

/-- Embedding of the str parse call for i32: optional single leading sign,
then only decimal digits, at least one, with the i32 range check. -/
def parseI32 (s : String) : Option Int :=
  let cs := s.toList
  let signed : Bool × List Char :=
    match cs with
    | '-' :: rest => (true, rest)
    | '+' :: rest => (false, rest)
    | _ => (false, cs)
  let ds := signed.2
  if ds.isEmpty then none
  else if !(ds.all Char.isDigit) then none
  else
    let n : Nat := ds.foldl (fun a c => a * 10 + (c.toNat - 48)) 0
    let v : Int := if signed.1 then -(n : Int) else (n : Int)
    if -2147483648 ≤ v ∧ v ≤ 2147483647 then some v else none

/-- Embedding of extract_integer_fragment. -/
def extract_integer_fragment (caps : List (Option String)) (position : Nat) :
    Option Int :=
  match capGet caps position with
  | some fr =>
    if headIs fr '#' then
      parseI32 (String.mk (fr.toList.dropWhile (fun c => c == '#')))
    else none
  | none => none

lemma capturesAux_length : ∀ (n : Nat) (s : List Char),
    (capturesAux n s).length = n := by
  intro n
  induction n with
  | zero => intro s; simp [capturesAux]
  | succ m ih =>
    intro s
    unfold capturesAux
    cases fragmentToken s with
    | some tr => simp [ih]
    | none => simp

lemma capturesD_length (key : String) : (capturesD key).length = 9 := by
  unfold capturesD captures
  cases fragmentToken key.toList with
  | some tr => simp [capturesAux_length]
  | none => simp

lemma capGet_out_of_groups (key : String) (position : Nat)
    (h : 9 ≤ position) : capGet (capturesD key) position = none := by
  unfold capGet
  rw [List.getElem?_eq_none]
  · rfl
  · rw [capturesD_length]; exact h

lemma extract_string_out_of_groups (key : String) (position : Nat)
    (h : 9 ≤ position) :
    extract_string_fragment (capturesD key) position = none := by
  unfold extract_string_fragment
  rw [capGet_out_of_groups key position h]

lemma extract_integer_out_of_groups (key : String) (position : Nat)
    (h : 9 ≤ position) :
    extract_integer_fragment (capturesD key) position = none := by
  unfold extract_integer_fragment
  rw [capGet_out_of_groups key position h]

/-- Claim C5 counterexample: the claim promises typed fragments at
positions 0 through 10, but the regex has only nine capture groups, so a
key carrying ten fragments decodes its tenth fragment (position 9) to
null while position 8 still decodes. The claim is false at this key. -/
theorem c5_counterexample_position9 :
    extract_string_fragment (capturesD "$a$b$c$d$e$f$g$h$i$j") 9 = none ∧
    extract_string_fragment (capturesD "$a$b$c$d$e$f$g$h$i$j") 8 = some "i" := by
  constructor
  · rfl
  · rfl

/-- Claim C5 (amended): the codec decodes up to nine typed fragments at
positions 0 through 8 (the regex has nine capture groups), a dollar sign
introducing a string fragment and a hash introducing an optionally signed
integer fragment; positions 9 and 10 always decode to null; the key
"dollar abc hash 42 dollar xyz" decodes to string abc at position 0,
integer 42 at position 1, string xyz at position 2, and null fragments at
every other position. -/
theorem c5_fragment_decoding :
    (∀ key : String,
      extract_string_fragment (capturesD key) 9 = none ∧
      extract_integer_fragment (capturesD key) 9 = none ∧
      extract_string_fragment (capturesD key) 10 = none ∧
      extract_integer_fragment (capturesD key) 10 = none) ∧
    extract_string_fragment (capturesD "$abc#42$xyz") 0 = some "abc" ∧
    extract_integer_fragment (capturesD "$abc#42$xyz") 0 = none ∧
    extract_integer_fragment (capturesD "$abc#42$xyz") 1 = some 42 ∧
    extract_string_fragment (capturesD "$abc#42$xyz") 1 = none ∧
    extract_string_fragment (capturesD "$abc#42$xyz") 2 = some "xyz" ∧
    (((List.range 11).drop 3).all (fun p =>
      (extract_string_fragment (capturesD "$abc#42$xyz") p).isNone &&
      (extract_integer_fragment (capturesD "$abc#42$xyz") p).isNone)) = true := by
  refine ⟨?_, ?_, ?_, ?_, ?_, ?_, ?_⟩
  · intro key
    exact ⟨extract_string_out_of_groups key 9 (by omega),
           extract_integer_out_of_groups key 9 (by omega),
           extract_string_out_of_groups key 10 (by omega),
           extract_integer_out_of_groups key 10 (by omega)⟩
  · rfl
  · rfl
  · rfl
  · rfl
  · rfl
  · rfl

/-! ## src/data_entries/updates.rs : collect_data_entries

The protobuf event types are embedded structurally: a BlockchainUpdated
carries a height and an optional Append payload, the Append carries the
transaction state updates, each holding data entry updates. The data_entry
field is unwrapped unconditionally in Rust, so it is a plain field here.
The base58 encoding of the raw address bytes is kept abstract as the given
address string, since no claim depends on the encoding itself. -/

inductive EValue where
  | intValue (v : Int)
  | boolValue (v : Bool)
  | binaryValue (v : List Nat)
  | stringValue (v : String)
deriving DecidableEq

structure DataEntryPayload where
  key : String
  value : Option EValue
deriving DecidableEq

structure DataEntryUpdate where
  address : String
  data_entry : DataEntryPayload
deriving DecidableEq

structure StateUpdate where
  data_entries : List DataEntryUpdate
deriving DecidableEq

structure BlockchainUpdated where
  height : Int
  update : Option (List StateUpdate)
deriving DecidableEq

/-- The row shape built by collect_data_entries, with the value columns and
the eleven fragment column pairs exactly as the Rust constructor lists
them. -/
structure InsertableDataEntry where
  address : String
  key : String
  height : Int
  value_binary : Option (List Nat)
  value_bool : Option Bool
  value_integer : Option Int
  value_string : Option String
  fragment_0_integer : Option Int
  fragment_0_string : Option String
  fragment_1_integer : Option Int
  fragment_1_string : Option String
  fragment_2_integer : Option Int
  fragment_2_string : Option String
  fragment_3_integer : Option Int
  fragment_3_string : Option String
  fragment_4_integer : Option Int
  fragment_4_string : Option String
  fragment_5_integer : Option Int
  fragment_5_string : Option String
  fragment_6_integer : Option Int
  fragment_6_string : Option String
  fragment_7_integer : Option Int
  fragment_7_string : Option String
  fragment_8_integer : Option Int
  fragment_8_string : Option String
  fragment_9_integer : Option Int
  fragment_9_string : Option String
  fragment_10_integer : Option Int
  fragment_10_string : Option String
deriving DecidableEq

structure DeletableDataEntryWithHeight where
  address : String
  key : String
  height : Int
deriving DecidableEq

/-- The insert row built for one suitable append event: value columns set
from the payload variant, fragment columns extracted from the capture
groups of the key. -/
def mkInsertableDataEntry (address key : String) (height : Int)
    (v : EValue) : InsertableDataEntry :=
  let caps := capturesD key
  { address := address
    key := key
    height := height
    value_binary := match v with | .binaryValue b => some b | _ => none
    value_bool := match v with | .boolValue b => some b | _ => none
    value_integer := match v with | .intValue n => some n | _ => none
    value_string := match v with | .stringValue s => some s | _ => none
    fragment_0_integer := extract_integer_fragment caps 0
    fragment_0_string := extract_string_fragment caps 0
    fragment_1_integer := extract_integer_fragment caps 1
    fragment_1_string := extract_string_fragment caps 1
    fragment_2_integer := extract_integer_fragment caps 2
    fragment_2_string := extract_string_fragment caps 2
    fragment_3_integer := extract_integer_fragment caps 3
    fragment_3_string := extract_string_fragment caps 3
    fragment_4_integer := extract_integer_fragment caps 4
    fragment_4_string := extract_string_fragment caps 4
    fragment_5_integer := extract_integer_fragment caps 5
    fragment_5_string := extract_string_fragment caps 5
    fragment_6_integer := extract_integer_fragment caps 6
    fragment_6_string := extract_string_fragment caps 6
    fragment_7_integer := extract_integer_fragment caps 7
    fragment_7_string := extract_string_fragment caps 7
    fragment_8_integer := extract_integer_fragment caps 8
    fragment_8_string := extract_string_fragment caps 8
    fragment_9_integer := extract_integer_fragment caps 9
    fragment_9_string := extract_string_fragment caps 9
    fragment_10_integer := extract_integer_fragment caps 10
    fragment_10_string := extract_string_fragment caps 10 }

/-- Embedding of collect_data_entries: on an Append update, walk the state
updates, keep only the data entries whose key is suitable for indexing,
and split them into insert rows (value present) and delete rows (value
absent), in traversal order; any other update is an invalid message. -/
def collect_data_entries (u : BlockchainUpdated) :
    Except String (Int × List InsertableDataEntry ×
      List DeletableDataEntryWithHeight) :=
  match u.update with
  | some transaction_state_updates =>
    let height := u.height
    let acc := transaction_state_updates.foldl (fun acc su =>
      su.data_entries.foldl (fun acc de =>
        if is_suitable_for_index de.data_entry.key then
          match de.data_entry.value with
          | some v =>
            (acc.1 ++ [mkInsertableDataEntry de.address de.data_entry.key
              height v], acc.2)
          | none =>
            (acc.1, acc.2 ++ [DeletableDataEntryWithHeight.mk de.address
              de.data_entry.key height])
        else acc) acc) ([], [])
    .ok (height, acc.1, acc.2)
  | none => .error "No valid block append field provided"

/-- A one-event append update, used to state the ingestion claims. -/
def singleEntryUpdate (height : Int) (addr key : String)
    (v : Option EValue) : BlockchainUpdated :=
  BlockchainUpdated.mk height
    (some [StateUpdate.mk [DataEntryUpdate.mk addr
      (DataEntryPayload.mk key v)]])

/-! ## src/data_entries/daemon.rs : one iteration of the reconciler loop

The loop body is embedded as a pure step function: the fetch result is a
parameter (none models a failed fetch, which unwrap_or_else turns into two
empty vectors), the insert and delete repository calls are write effects
that do not feed back into the watermark or backoff decision, and the step
reports the new watermark together with whether the five second delay is
taken. Heights are i32 in the events and u32 in the watermark; the Rust
cast as u32 is the explicit mod 2 to the 32. -/

def i32AsU32 (h : Int) : Nat := (h % 4294967296).toNat

structure DaemonStepResult where
  from_height : Nat
  to_height : Nat
  new_watermark : Nat
  sleep_backoff : Bool
deriving DecidableEq

/-- Embedding of the body of start in src/data_entries/daemon.rs. -/
def daemonStep (min_height : Nat) (blocks_per_request : Nat)
    (last_handled_height : Nat)
    (fetched : Option (List InsertableDataEntry ×
      List DeletableDataEntryWithHeight)) : DaemonStepResult :=
  let from_height :=
    if last_handled_height < min_height then min_height
    else last_handled_height + 1
  let to_height := from_height + blocks_per_request - 1
  let updates := fetched.getD ([], [])
  let last_inserted := updates.1.getLast?
  let last_deleted := updates.2.getLast?
  let last_updated_height : Option Nat :=
    match last_inserted with
    | some li =>
      match last_deleted with
      | some ld =>
        if ld.height > li.height then some (i32AsU32 ld.height)
        else some (i32AsU32 li.height)
      | none => some (i32AsU32 li.height)
    | none => none
  let new_watermark :=
    match last_updated_height with
    | some h => h
    | none => last_handled_height
  let sleep_backoff := updates.1.length + updates.2.length == 0
  DaemonStepResult.mk from_height to_height new_watermark sleep_backoff

/-- Claim C6 counterexample: an append event whose key has no fragment
separator is dropped by the filter in collect_data_entries, so no row at
all is produced for it, while the claim says a row is still stored with
all fragment columns null. -/
theorem c6_counterexample_row_dropped :
    is_suitable_for_index "abc" = false ∧
    collect_data_entries
      (singleEntryUpdate 5 "X" "abc" (some (EValue.stringValue "v"))) =
      .ok (5, [], []) := by
  constructor
  · rfl
  · rfl

/-- Claim C6 (amended): for every event whose key does not start with a
fragment separator or cannot be tokenized by the fragment grammar, the
codec signals no fragments through the boolean is_suitable_for_index
rather than an error, and the ingestion path skips the event entirely: it
contributes neither an insert row nor a delete row. -/
theorem c6_unsuitable_key_skipped (height : Int) (addr key : String)
    (v : Option EValue) (h : is_suitable_for_index key = false) :
    collect_data_entries (singleEntryUpdate height addr key v) =
      .ok (height, [], []) := by
  unfold singleEntryUpdate collect_data_entries
  simp [h]

/-- Claim C6 witness: the amended theorem applied to a concrete removal
event with an unindexable key. -/
theorem c6_unsuitable_key_skipped_witness :
    collect_data_entries (singleEntryUpdate 7 "addr1" "plain_key" none) =
      .ok (7, [], []) :=
  c6_unsuitable_key_skipped 7 "addr1" "plain_key" none rfl

/-- Claim C3: evaluation of the reconciler step at the failing input. A
fetched range yielding zero insert events and one delete event at height
12 leaves the watermark at 10 (the branch on last_inserted ignores
last_deleted when there is no insert) and takes no backoff, while the
claim requires the watermark to advance to 12 for any range that yielded
events. -/
theorem c3_delete_only_range_stalls_watermark :
    (daemonStep 0 100 10
      (some ([], [DeletableDataEntryWithHeight.mk "a" "k" 12]))).new_watermark
      = 10 ∧
    (daemonStep 0 100 10
      (some ([], [DeletableDataEntryWithHeight.mk "a" "k" 12]))).sleep_backoff
      = false := by
  constructor
  · rfl
  · rfl

/-! ## src/api/historical.rs : point-in-time parameter validation

The datetime is modelled as an Int (its unix timestamp); check_valid only
inspects presence, so the carrier type is irrelevant to the claim. The
warp rejection wrapping is modelled as the error payload itself: an
AppError validation error holding the ErrorDetails below. -/

structure ErrorDetails where
  parameter : String
  reason : String
deriving DecidableEq

structure HistoricalRequestParams where
  block_timestamp : Option Int
  height : Option Int
deriving DecidableEq

/-- The validation error built when both point-in-time parameters are
present. -/
def bothHistoricalParamsError : ErrorDetails :=
  ErrorDetails.mk "height, block_timestamp"
    "only one historical parameter must be used"

/-- Embedding of HistoricalRequestParams::check_valid. -/
def check_valid (p : HistoricalRequestParams) : Except ErrorDetails Unit :=
  if p.block_timestamp.isSome && p.height.isSome then
    .error bothHistoricalParamsError
  else
    .ok ()

/-- Embedding of HistoricalRequestParams::is_empty. -/
def hrp_is_empty (p : HistoricalRequestParams) : Bool :=
  p.block_timestamp.isNone && p.height.isNone

/-- Claim C4: validation of the point-in-time parameters fails if and only
if both height and block_timestamp are present, the error names the
parameter pair height, block_timestamp, and with at most one parameter
present validation succeeds. -/
theorem c4_historical_params_mutually_exclusive
    (bt h : Option Int) :
    (check_valid (HistoricalRequestParams.mk bt h) =
        .error bothHistoricalParamsError ↔
      bt.isSome = true ∧ h.isSome = true) ∧
    ((check_valid (HistoricalRequestParams.mk bt h)).isOk = true ↔
      bt = none ∨ h = none) ∧
    bothHistoricalParamsError.parameter = "height, block_timestamp" := by
  refine ⟨?_, ?_, rfl⟩
  · cases bt <;> cases h <;> simp [check_valid]
  · cases bt <;> cases h <;> simp [check_valid, Except.isOk, Except.toBool]

/-! ## src/api/sql.rs : the WHERE-clause compiler

The filter AST mirrors the parsed request types the compiler consumes; the
struct shapes are read off the pattern matches and field accesses of the
From impls. String literals in the renderers reproduce the Rust format
string segments one to one, with the quote written as an escape. The md5
hex digest of the external md5 crate is a parameter of the renderer: the
claims hold for every digest function, and a witness can instantiate it.
The base64 encoding of the external base64 crate is embedded below, since
one claim asserts that binary literals are rendered through it. -/

/-- Standard base64 alphabet as used by base64::encode. -/
def b64Char (n : Nat) : Char :=
  "ABCDEFGHIJKLMNOPQRSTUVWXYZabcdefghijklmnopqrstuvwxyz0123456789+/".toList.getD n 'A'

/-- Standard base64 encoding with padding, three input bytes per group. -/
def base64EncodeList : List Nat → List Char
  | [] => []
  | [a] => [b64Char (a / 4), b64Char (a % 4 * 16), '=', '=']
  | [a, b] => [b64Char (a / 4), b64Char (a % 4 * 16 + b / 16),
      b64Char (b % 16 * 4), '=']
  | a :: b :: c :: rest =>
    b64Char (a / 4) :: b64Char (a % 4 * 16 + b / 16) ::
      b64Char (b % 16 * 4 + c / 64) :: b64Char (c % 64) ::
        base64EncodeList rest

def base64Encode (bytes : List Nat) : String :=
  String.mk (base64EncodeList bytes)

/-- The character table of pg_escape, acting on text: every escaped byte
is ASCII and multi-byte UTF-8 code units are all above 0x7f, so escaping
the byte sequence coincides with escaping character by character. -/
def escChar (c : Char) : List Char :=
  if c = '\x27' then ['\x27', '\x27']
  else if c = '\x07' then ['\\', 'a']
  else if c = '\x08' then ['\\', 'b']
  else if c = '\x09' then ['\\', 't']
  else if c = '\x0a' then ['\\', 'n']
  else if c = '\x0b' then ['\\', 'v']
  else if c = '\x0c' then ['\\', 'f']
  else if c = '\x0d' then ['\\', 'r']
  else if c = ' ' then ['\\', ' ']
  else if c = '\\' then ['\\', '\\']
  else [c]

/-- pg_escape as the compiler applies it to textual literals. -/
def pg_escape_text (s : String) : String :=
  String.mk (s.toList.flatMap escChar)

inductive FragmentType where
  | string
  | integer
deriving DecidableEq

inductive Operation where
  | eq
  | gt
  | gte
  | lt
  | lte
deriving DecidableEq

inductive FragmentValueType where
  | intVal (n : Int)
  | stringVal (s : String)
deriving DecidableEq

inductive InFilterValue where
  | binaryVal (b : List Nat)
  | boolVal (b : Bool)
  | intVal (n : Int)
  | stringVal (s : String)
deriving DecidableEq

inductive ValueType where
  | binary
  | bool
  | integer
  | string
deriving DecidableEq

inductive ValueData where
  | binary (b : List Nat)
  | string (s : String)
  | bool (b : Bool)
  | integer (n : Int)
deriving DecidableEq

inductive InItemFilter where
  | fragment (position : Nat) (fragment_type : FragmentType)
  | key
  | value (value_type : ValueType)
  | address
deriving DecidableEq

structure InFilter where
  properties : List InItemFilter
  values : List (List InFilterValue)
deriving DecidableEq

structure KeyFragmentFilter where
  position : Nat
  fragment_type : FragmentType
  operation : Operation
  value : FragmentValueType
deriving DecidableEq

structure ValueFragmentFilter where
  position : Nat
  fragment_type : FragmentType
  operation : Operation
  value : FragmentValueType
deriving DecidableEq

structure KeyFilter where
  value : String
deriving DecidableEq

structure ValueFilter where
  value_type : ValueType
  operation : Operation
  value : ValueData
deriving DecidableEq

structure AddressFilter where
  value : String
deriving DecidableEq

inductive RequestFilter where
  | and (children : List RequestFilter)
  | or (children : List RequestFilter)
  | inFilter (f : InFilter)
  | fragment (f : KeyFragmentFilter)
  | valueFragment (f : ValueFragmentFilter)
  | key (f : KeyFilter)
  | value (f : ValueFilter)
  | address (f : AddressFilter)

/-- From InFilterValue for SqlWhere: note the string and binary variants
bake the surrounding quotes into the rendered text. -/
def inFilterValueToSql : InFilterValue → String
  | .binaryVal b => "\x27" ++ base64Encode b ++ "\x27"
  | .boolVal b => toString b
  | .intVal n => toString n
  | .stringVal s => "\x27" ++ s ++ "\x27"

/-- From FragmentValueType for SqlWhere: the string variant interpolates
the raw value between quotes, with no escaping applied. -/
def fragmentValueTypeToSql : FragmentValueType → String
  | .intVal n => toString n
  | .stringVal s => "\x27" ++ s ++ "\x27"

def fragmentTypeToSql : FragmentType → String
  | .integer => "integer"
  | .string => "string"

def operationToSql : Operation → String
  | .eq => "="
  | .gt => ">"
  | .gte => ">="
  | .lt => "<"
  | .lte => "<="

def inItemFilterToSql : InItemFilter → String
  | .fragment position fragment_type =>
    "fragment_" ++ toString position ++ "_" ++ fragmentTypeToSql fragment_type
  | .key => "key"
  | .value .binary => "value_binary"
  | .value .bool => "value_bool"
  | .value .integer => "value_integer"
  | .value .string => "value_string"
  | .address => "address"

/-- Embedding of str trim_matches for the quote pattern: strips every
leading and every trailing quote character. -/
def trimMatchesQuote (s : String) : String :=
  String.mk (((s.toList.dropWhile (fun c => c == '\x27')).reverse.dropWhile
    (fun c => c == '\x27')).reverse)

/-- From InFilter for SqlWhere: each row value is rendered, stripped of
its surrounding quotes, escaped, and re-quoted by the row template; the
property columns are escaped as well. -/
def inFilterToSql (f : InFilter) : String :=
  let values := f.values.map (fun row =>
    "(\x27" ++ String.intercalate "\x27,\x27"
      (row.map (fun vt => pg_escape_text (trimMatchesQuote
        (inFilterValueToSql vt)))) ++ "\x27)")
  if f.properties.length > 0 && values.length > 0 then
    "((" ++ String.intercalate ","
      (f.properties.map (fun p => pg_escape_text (inItemFilterToSql p))) ++
      ") IN (" ++ String.intercalate "," values ++ "))"
  else
    "1=1"

def keyFragmentFilterToSql (f : KeyFragmentFilter) : String :=
  "fragment_" ++ toString f.position ++ "_" ++
    fragmentTypeToSql f.fragment_type ++ " " ++ operationToSql f.operation ++
    " " ++ fragmentValueTypeToSql f.value

def valueFragmentFilterToSql (f : ValueFragmentFilter) : String :=
  "value_fragment_" ++ toString f.position ++ "_" ++
    fragmentTypeToSql f.fragment_type ++ " " ++ operationToSql f.operation ++
    " " ++ fragmentValueTypeToSql f.value

def keyFilterToSql (f : KeyFilter) : String :=
  "key = \x27" ++ pg_escape_text f.value ++ "\x27"

def addressFilterToSql (f : AddressFilter) : String :=
  "address = \x27" ++ pg_escape_text f.value ++ "\x27"

/-- From ValueFilter for SqlWhere, with the md5 hex digest of the external
md5 crate as the parameter md5hex. -/
def valueFilterToSql (md5hex : String → String) (v : ValueFilter) : String :=
  match v.value with
  | .binary b =>
    "value_binary = \x27" ++ base64Encode b ++
      "\x27 AND md5(value_binary) = md5(\x27" ++ base64Encode b ++ "\x27)"
  | .string s =>
    "value_string = \x27" ++ pg_escape_text s ++
      "\x27 AND md5(value_string) = \x27" ++ md5hex s ++ "\x27"
  | .bool b =>
    "value_bool = " ++ toString b ++ " AND value_bool IS NOT NULL"
  | .integer n =>
    "value_integer " ++ operationToSql v.operation ++ " " ++ toString n

mutual

def requestFilterToSql (md5hex : String → String) : RequestFilter → String
  | .and ns =>
    if ns.length > 0 then
      "(" ++ String.intercalate " AND " (requestFilterListToSql md5hex ns)
        ++ ")"
    else "1=1"
  | .or ns =>
    if ns.length > 0 then
      "(" ++ String.intercalate " OR " (requestFilterListToSql md5hex ns)
        ++ ")"
    else "1=1"
  | .inFilter f => inFilterToSql f
  | .fragment f => keyFragmentFilterToSql f
  | .valueFragment f => valueFragmentFilterToSql f
  | .key f => keyFilterToSql f
  | .value f => valueFilterToSql md5hex f
  | .address f => addressFilterToSql f

def requestFilterListToSql (md5hex : String → String) :
    List RequestFilter → List String
  | [] => []
  | f :: fs =>
    requestFilterToSql md5hex f :: requestFilterListToSql md5hex fs

end

/-- Claim C1: evaluation of the compiler at the failing input. A string
valued key-fragment leaf interpolates its literal with no escaping (the
From impl for FragmentValueType formats the raw string between quotes),
so a value holding a quote renders a WHERE clause in which the literal is
terminated early, while every other renderer in the same file escapes.
The second conjunct shows what the escaping function would have produced
for the same value. -/
theorem c1_fragment_string_value_unescaped :
    requestFilterToSql (fun _ => "")
      (RequestFilter.fragment (KeyFragmentFilter.mk 0 FragmentType.string
        Operation.eq (FragmentValueType.stringVal "a\x27b"))) =
      "fragment_0_string = \x27a\x27b\x27" ∧
    pg_escape_text "a\x27b" = "a\x27\x27b" := by
  constructor
  · rfl
  · rfl

/-- Claim C7: a Value filter leaf renders against the physical column of
its payload kind: a binary value renders its base64 encoding (never the
raw bytes) on value_binary with an md5 equality conjunct, a string value
renders an escaped equality on value_string and an md5 digest conjunct, a
bool value renders an equality on value_bool conjoined with an IS NOT
NULL requirement, and an integer value renders value_integer compared
with the requested operation. The digest function of the md5 crate is
universally quantified. -/
theorem c7_value_filter_rendering (md5hex : String → String)
    (vt : ValueType) (op : Operation) (b : List Nat) (s : String)
    (bo : Bool) (n : Int) :
    valueFilterToSql md5hex (ValueFilter.mk vt op (ValueData.binary b)) =
      "value_binary = \x27" ++ base64Encode b ++
        "\x27 AND md5(value_binary) = md5(\x27" ++ base64Encode b ++
        "\x27)" ∧
    valueFilterToSql md5hex (ValueFilter.mk vt op (ValueData.string s)) =
      "value_string = \x27" ++ pg_escape_text s ++
        "\x27 AND md5(value_string) = \x27" ++ md5hex s ++ "\x27" ∧
    valueFilterToSql md5hex (ValueFilter.mk vt op (ValueData.bool bo)) =
      "value_bool = " ++ toString bo ++ " AND value_bool IS NOT NULL" ∧
    valueFilterToSql md5hex (ValueFilter.mk vt op (ValueData.integer n)) =
      "value_integer " ++ operationToSql op ++ " " ++ toString n := by
  refine ⟨rfl, rfl, rfl, rfl⟩

/-! ## src/data_entries.rs : the read-path SQL texts

search_data_entries and mget_data_entries assemble one SQL string from
BASE_QUERY, bind MAX_UID as the positional parameter 1, and hand it to
the driver. The assembly is embedded verbatim; the driver call is not.
Containment of a clause in the assembled text is expressed with an
executable substring scan defined here. -/

/-- Whether pat occurs at the head of l. -/
def patAtHead : List Char → List Char → Bool
  | [], _ => true
  | _ :: _, [] => false
  | p :: ps, c :: cs => p == c && patAtHead ps cs

/-- Whether pat occurs anywhere inside l. -/
def patInside (pat : List Char) : List Char → Bool
  | [] => patAtHead pat []
  | c :: t => patAtHead pat (c :: t) || patInside pat t

/-- Whether pat occurs as a contiguous substring of s. -/
def containsSub (s pat : String) : Bool := patInside pat.toList s.toList

lemma str_toList_append (a b : String) :
    (a ++ b).toList = a.toList ++ b.toList := by
  cases a; cases b; rfl

lemma patAtHead_self (pat t : List Char) :
    patAtHead pat (pat ++ t) = true := by
  induction pat with
  | nil => rfl
  | cons p ps ih => simp [patAtHead, ih]

lemma patInside_of_head (pat l : List Char) (h : patAtHead pat l = true) :
    patInside pat l = true := by
  cases l with
  | nil => exact h
  | cons c t => simp [patInside, h]

lemma patInside_append_right (pat l r : List Char)
    (h : patInside pat r = true) : patInside pat (l ++ r) = true := by
  induction l with
  | nil => simpa using h
  | cons c t ih => simp [patInside, ih]

lemma patInside_here (pat t : List Char) :
    patInside pat (pat ++ t) = true :=
  patInside_of_head pat (pat ++ t) (patAtHead_self pat t)

lemma containsSub_append_right (s t pat : String)
    (h : containsSub t pat = true) : containsSub (s ++ t) pat = true := by
  unfold containsSub at h ⊢
  rw [str_toList_append]
  exact patInside_append_right _ _ _ h

lemma containsSub_here (pat t : String) :
    containsSub (pat ++ t) pat = true := by
  unfold containsSub
  rw [str_toList_append]
  exact patInside_here _ _

/-- The live-row sentinel: i64 MAX minus one. -/
def MAX_UID : Int := 9223372036854775807 - 1

/-- The tombstone guard of BASE_QUERY: at least one value column is
non-null. -/
def value_not_null_guard : String :=
  "(de.value_binary IS NOT NULL OR de.value_bool IS NOT NULL OR de.value_integer IS NOT NULL OR de.value_string IS NOT NULL)"

/-- The live-version restriction appended by search_data_entries, with the
bound parameter placeholder. -/
def superseded_guard : String := "de.superseded_by = $1"

/-- The column list and joins of BASE_QUERY, everything before the WHERE
guard. -/
def base_query_head : String :=
  "SELECT de.address, de.key, bm.height, de.value_binary, de.value_bool, de.value_integer, de.value_string, de.fragment_0_string, de.fragment_0_integer, de.fragment_1_string, de.fragment_1_integer, de.fragment_2_string, de.fragment_2_integer, de.fragment_3_string, de.fragment_3_integer, de.fragment_4_string, de.fragment_4_integer, de.fragment_5_string, de.fragment_5_integer, de.fragment_6_string, de.fragment_6_integer, de.fragment_7_string, de.fragment_7_integer, de.fragment_8_string, de.fragment_8_integer, de.fragment_9_string, de.fragment_9_integer, de.fragment_10_string, de.fragment_10_integer, de.value_fragment_0_string, de.value_fragment_0_integer, de.value_fragment_1_string, de.value_fragment_1_integer, de.value_fragment_2_string, de.value_fragment_2_integer, de.value_fragment_3_string, de.value_fragment_3_integer, de.value_fragment_4_string, de.value_fragment_4_integer, de.value_fragment_5_string, de.value_fragment_5_integer, de.value_fragment_6_string, de.value_fragment_6_integer, de.value_fragment_7_string, de.value_fragment_7_integer, de.value_fragment_8_string, de.value_fragment_8_integer, de.value_fragment_9_string, de.value_fragment_9_integer, de.value_fragment_10_string, de.value_fragment_10_integer FROM data_entries de LEFT JOIN blocks_microblocks bm ON bm.uid = de.block_uid WHERE "

/-- BASE_QUERY of src/data_entries.rs, the Rust line continuations
joined. -/
def BASE_QUERY : String := base_query_head ++ value_not_null_guard ++ " "

/-- The SQL text assembled by Repo::search_data_entries before binding
MAX_UID as parameter 1. -/
def search_data_entries_sql (filter sort : Option String)
    (limit offset : Nat) : String :=
  let query_where_string :=
    let w := filter.getD ""
    if w.length > 0 then "AND " ++ w else w
  let query_sort_string :=
    let s := sort.getD ""
    if s.length > 0 then "ORDER BY " ++ s else s
  BASE_QUERY ++ " AND de.superseded_by = $1 " ++ query_where_string ++ " " ++
    query_sort_string ++ " LIMIT " ++ toString limit ++ " OFFSET " ++
    toString offset

/-- The SQL text assembled by Repo::mget_data_entries: none when the
filter renders empty, in which case the repository answers with an empty
row list and never queries. -/
def mget_data_entries_sql (filter historical_filter : String) :
    Option String :=
  if filter.length > 0 then
    some (BASE_QUERY ++ " AND (" ++ filter ++ ") " ++ historical_filter)
  else none

/-- The SQL text mget_data_entries assembles for the filter 1=1 and an
empty historical filter. -/
def c8_mget_example_sql : String := BASE_QUERY ++ " AND (1=1) " ++ ""

/-- Claim C8 counterexample: the mget read path does not itself conjoin
the superseded_by restriction; with an empty caller-supplied historical
filter the assembled SQL text contains no superseded_by condition at all,
although MAX_UID is still bound as parameter 1. -/
theorem c8_counterexample_mget_no_superseded_guard :
    mget_data_entries_sql "1=1" "" = some c8_mget_example_sql ∧
    containsSub c8_mget_example_sql "superseded_by" = false := by
  constructor
  · rfl
  · rfl

/-- Claim C8 (amended): search_data_entries always conjoins both the
superseded_by equality on the bound parameter 1 and the condition that at
least one of the four value columns is non-null, with the live-row
sentinel MAX_UID equal to i64 MAX minus one bound as parameter 1;
mget_data_entries always conjoins the non-null condition, while the
superseded-by restriction reaches its SQL only through the caller
supplied historical filter string. -/
theorem c8_read_path_guards :
    (∀ (f s : Option String) (l o : Nat),
      containsSub (search_data_entries_sql f s l o) superseded_guard
        = true ∧
      containsSub (search_data_entries_sql f s l o) value_not_null_guard
        = true) ∧
    (∀ (f hf sql : String), mget_data_entries_sql f hf = some sql →
      containsSub sql value_not_null_guard = true) ∧
    MAX_UID = 9223372036854775806 := by
  refine ⟨?_, ?_, by decide⟩
  · intro f s l o
    constructor
    · have hsplit : (" AND de.superseded_by = $1 " : String) =
          " AND " ++ (superseded_guard ++ " ") := rfl
      simp only [search_data_entries_sql]
      rw [hsplit]
      simp only [String.append_assoc]
      apply containsSub_append_right
      apply containsSub_append_right
      exact containsSub_here _ _
    · simp only [search_data_entries_sql, BASE_QUERY]
      simp only [String.append_assoc]
      apply containsSub_append_right
      exact containsSub_here _ _
  · intro f hf sql h
    unfold mget_data_entries_sql at h
    split at h
    · rw [Option.some_inj] at h
      subst h
      simp only [BASE_QUERY]
      simp only [String.append_assoc]
      apply containsSub_append_right
      exact containsSub_here _ _
    · exact absurd h (by simp)

/-- The SQL text mget_data_entries assembles when the caller passes a key
filter and the current-rows historical filter. -/
def c8_witness_sql : String :=
  BASE_QUERY ++ " AND (key = \x27k\x27) " ++ "and de.superseded_by = $1"

/-- Claim C8 witness: the amended theorem applied to a concrete mget
query. -/
theorem c8_read_path_guards_witness :
    containsSub c8_witness_sql value_not_null_guard = true :=
  c8_read_path_guards.2.1 "key = \x27k\x27" "and de.superseded_by = $1"
    c8_witness_sql rfl

/-! ## src/api/mod.rs : the search and mget handlers

The warp plumbing, JSON serialization, and the row-to-JSON conversion are
out of scope; the handlers are embedded as functions from the repository
answer (the row list the store returned) to the response payload. The
store itself is a parameter of the search handler, which lets the claim
express that the handler requests exactly limit plus one rows. Rows keep
the full column set of the repository DataEntry struct; the JSON
conversion is one to one per row and does not affect counting or
alignment. -/

structure DataEntry where
  address : String
  key : String
  height : Int
  value_binary : Option (List Nat) := none
  value_bool : Option Bool := none
  value_integer : Option Int := none
  value_string : Option String := none
  fragment_0_string : Option String := none
  fragment_0_integer : Option Int := none
  fragment_1_string : Option String := none
  fragment_1_integer : Option Int := none
  fragment_2_string : Option String := none
  fragment_2_integer : Option Int := none
  fragment_3_string : Option String := none
  fragment_3_integer : Option Int := none
  fragment_4_string : Option String := none
  fragment_4_integer : Option Int := none
  fragment_5_string : Option String := none
  fragment_5_integer : Option Int := none
  fragment_6_string : Option String := none
  fragment_6_integer : Option Int := none
  fragment_7_string : Option String := none
  fragment_7_integer : Option Int := none
  fragment_8_string : Option String := none
  fragment_8_integer : Option Int := none
  fragment_9_string : Option String := none
  fragment_9_integer : Option Int := none
  fragment_10_string : Option String := none
  fragment_10_integer : Option Int := none
  value_fragment_0_string : Option String := none
  value_fragment_0_integer : Option Int := none
  value_fragment_1_string : Option String := none
  value_fragment_1_integer : Option Int := none
  value_fragment_2_string : Option String := none
  value_fragment_2_integer : Option Int := none
  value_fragment_3_string : Option String := none
  value_fragment_3_integer : Option Int := none
  value_fragment_4_string : Option String := none
  value_fragment_4_integer : Option Int := none
  value_fragment_5_string : Option String := none
  value_fragment_5_integer : Option Int := none
  value_fragment_6_string : Option String := none
  value_fragment_6_integer : Option Int := none
  value_fragment_7_string : Option String := none
  value_fragment_7_integer : Option Int := none
  value_fragment_8_string : Option String := none
  value_fragment_8_integer : Option Int := none
  value_fragment_9_string : Option String := none
  value_fragment_9_integer : Option Int := none
  value_fragment_10_string : Option String := none
  value_fragment_10_integer : Option Int := none
deriving DecidableEq

inductive SortItemDirection where
  | asc
  | desc
deriving DecidableEq

inductive SortItem where
  | fragment (position : Nat) (fragment_type : FragmentType)
      (direction : SortItemDirection)
  | key (direction : SortItemDirection)
  | value (direction : SortItemDirection)
  | address (direction : SortItemDirection)
  | base (direction : SortItemDirection)
  | valueFragment (position : Nat) (fragment_type : FragmentType)
      (direction : SortItemDirection)
deriving DecidableEq

def sortItemDirectionToSql : SortItemDirection → String
  | .asc => "ASC"
  | .desc => "DESC"

/-- From SortItem for SqlSort in src/api/sql.rs. -/
def sortItemToSql : SortItem → String
  | .fragment position fragment_type direction =>
    "fragment_" ++ toString position ++ "_" ++
      fragmentTypeToSql fragment_type ++ " " ++
      sortItemDirectionToSql direction
  | .key direction => "key " ++ sortItemDirectionToSql direction
  | .value direction => "value " ++ sortItemDirectionToSql direction
  | .address direction => "address " ++ sortItemDirectionToSql direction
  | .base direction => "uid " ++ sortItemDirectionToSql direction
  | .valueFragment position fragment_type direction =>
    "value_fragment_" ++ toString position ++ "_" ++
      fragmentTypeToSql fragment_type ++ " " ++
      sortItemDirectionToSql direction

/-- From RequestSort for SqlSort: comma-joined sort items. -/
def requestSortToSql (items : List SortItem) : String :=
  String.intercalate "," (items.map sortItemToSql)

structure SearchRequest where
  filter : Option RequestFilter
  sort : Option (List SortItem)
  limit : Nat
  offset : Nat

structure DataEntriesResponse where
  entries : List DataEntry
  has_next_page : Bool

/-- Embedding of the search handler body: it asks the repository for
limit plus one rows at the request offset, truncates the answer to limit
entries, and reports a next page exactly when the answer was longer than
limit. -/
def search_handler
    (store : Option RequestFilter → Option (List SortItem) → Nat → Nat →
      List DataEntry)
    (req : SearchRequest) : DataEntriesResponse :=
  let de := store req.filter req.sort (req.limit + 1) req.offset
  DataEntriesResponse.mk (de.take req.limit) (decide (de.length > req.limit))

/-- Claim C9: for every search request with limit L, the handler asks the
store for L plus one rows (its response only depends on the store at that
request), returns at most L entries, and sets has_next_page exactly when
the store answered strictly more than L rows. -/
theorem c9_search_pagination
    (store : Option RequestFilter → Option (List SortItem) → Nat → Nat →
      List DataEntry)
    (req : SearchRequest) :
    (search_handler store req).entries.length ≤ req.limit ∧
    ((search_handler store req).has_next_page = true ↔
      (store req.filter req.sort (req.limit + 1) req.offset).length >
        req.limit) ∧
    (∀ store2,
      store req.filter req.sort (req.limit + 1) req.offset =
        store2 req.filter req.sort (req.limit + 1) req.offset →
      search_handler store req = search_handler store2 req) := by
  refine ⟨?_, ?_, ?_⟩
  · simp only [search_handler]
    simp [List.length_take]
  · simp only [search_handler]
    simp
  · intro store2 h
    simp only [search_handler, h]

/-- A store answering every request with the requested number of copies of
one row. -/
def c9_store_full (_f : Option RequestFilter) (_s : Option (List SortItem))
    (limit _offset : Nat) : List DataEntry :=
  List.replicate limit { address := "a", key := "k", height := 1, value_integer := some 7 }

/-- A store that equals c9_store_full on requests for three rows and is
empty elsewhere. -/
def c9_store_probe (f : Option RequestFilter) (s : Option (List SortItem))
    (limit offset : Nat) : List DataEntry :=
  if limit = 3 then c9_store_full f s limit offset else []

/-- Claim C9 witness: the theorem applied to a concrete request with
limit 2 and two stores that agree on the probed request for three rows. -/
theorem c9_search_pagination_witness :
    search_handler c9_store_full (SearchRequest.mk none none 2 0) =
      search_handler c9_store_probe (SearchRequest.mk none none 2 0) :=
  (c9_search_pagination c9_store_full
    (SearchRequest.mk none none 2 0)).2.2 c9_store_probe rfl

/-! ### The mget handlers

The Rust mget handlers turn the repository answer into a HashMap keyed by
the address and key pair (or by the key alone for the by-address route),
then walk the requested pairs in order, removing each hit from the map so
a repeated pair finds nothing the second time. The map is modelled as an
association list with unique keys: insertion removes the old binding
first, exactly the observable behavior of HashMap insert, lookup and
remove. -/

def hmRemove {κ α : Type} [DecidableEq κ] : List (κ × α) → κ → List (κ × α)
  | [], _ => []
  | (k, v) :: rest, key =>
    if k = key then hmRemove rest key else (k, v) :: hmRemove rest key

def hmLookup {κ α : Type} [DecidableEq κ] : List (κ × α) → κ → Option α
  | [], _ => none
  | (k, v) :: rest, key =>
    if k = key then some v else hmLookup rest key

def hmInsert {κ α : Type} [DecidableEq κ] (m : List (κ × α)) (k : κ)
    (v : α) : List (κ × α) :=
  (k, v) :: hmRemove m k

/-- The map built by collect on the repository answer: later rows with
the same key overwrite earlier ones, as HashMap collect does. -/
def buildEntriesMap (db : List DataEntry) :
    List ((String × String) × DataEntry) :=
  db.foldl (fun m de => hmInsert m (de.address, de.key) de) []

/-- The result-assembly loop: one output slot per requested key, taking
the map entry out when it is found. -/
def mgetLoop {κ α : Type} [DecidableEq κ] :
    List (κ × α) → List κ → List (Option α)
  | _, [] => []
  | m, p :: ps => hmLookup m p :: mgetLoop (hmRemove m p) ps

/-- Embedding of the mget_entries handler body on the repository answer
db and the requested address and key pairs. -/
def mget_entries_handler (db : List DataEntry)
    (pairs : List (String × String)) : List (Option DataEntry) :=
  mgetLoop (buildEntriesMap db) pairs

lemma hmLookup_hmRemove_self {κ α : Type} [DecidableEq κ]
    (m : List (κ × α)) (k : κ) : hmLookup (hmRemove m k) k = none := by
  induction m with
  | nil => rfl
  | cons kv rest ih =>
    obtain ⟨k0, v0⟩ := kv
    by_cases h : k0 = k
    · simpa [hmRemove, h] using ih
    · simpa [hmRemove, hmLookup, h] using ih

lemma hmLookup_hmRemove_ne {κ α : Type} [DecidableEq κ]
    (m : List (κ × α)) (p q : κ) (h : p ≠ q) :
    hmLookup (hmRemove m q) p = hmLookup m p := by
  induction m with
  | nil => rfl
  | cons kv rest ih =>
    obtain ⟨k0, v0⟩ := kv
    by_cases h0 : k0 = q
    · have hk : ¬q = p := fun hc => h hc.symm
      simp [hmRemove, hmLookup, h0, hk, ih]
    · by_cases hk : k0 = p
      · have hpq : ¬p = q := h
        simp [hmRemove, hmLookup, h0, hk, hpq]
      · simp [hmRemove, hmLookup, h0, hk, ih]

lemma hmLookup_hmInsert {κ α : Type} [DecidableEq κ]
    (m : List (κ × α)) (k : κ) (v : α) (p : κ) :
    hmLookup (hmInsert m k v) p =
      if k = p then some v else hmLookup m p := by
  by_cases h : k = p
  · simp [hmInsert, hmLookup, h]
  · have hp : p ≠ k := fun hc => h hc.symm
    simp [hmInsert, hmLookup, h, hmLookup_hmRemove_ne m p k hp]

lemma mgetLoop_length {κ α : Type} [DecidableEq κ] :
    ∀ (ps : List κ) (m : List (κ × α)),
      (mgetLoop m ps).length = ps.length := by
  intro ps
  induction ps with
  | nil => intro m; rfl
  | cons p t ih => intro m; simp [mgetLoop, ih]

lemma mgetLoop_get {κ α : Type} [DecidableEq κ] :
    ∀ (ps : List κ) (m : List (κ × α)) (i : Nat) (p : κ),
      ps[i]? = some p →
      (mgetLoop m ps)[i]? =
        some (if p ∈ ps.take i then none else hmLookup m p) := by
  intro ps
  induction ps with
  | nil => intro m i p h; simp at h
  | cons q qs ih =>
    intro m i p h
    cases i with
    | zero =>
      simp only [List.getElem?_cons_zero, Option.some_inj] at h
      subst h
      simp [mgetLoop]
    | succ j =>
      simp only [List.getElem?_cons_succ] at h
      show (hmLookup m q :: mgetLoop (hmRemove m q) qs)[j + 1]? = _
      rw [List.getElem?_cons_succ, ih (hmRemove m q) j p h]
      by_cases hpq : p = q
      · subst hpq
        simp [List.take_succ_cons, List.mem_cons, hmLookup_hmRemove_self]
      · simp [List.take_succ_cons, List.mem_cons, hpq,
          hmLookup_hmRemove_ne m p q hpq]

lemma hmLookup_buildEntriesMap_none :
    ∀ (db : List DataEntry) (m : List ((String × String) × DataEntry))
      (p : String × String),
      hmLookup (db.foldl (fun m de => hmInsert m (de.address, de.key) de) m)
          p = none ↔
        (∀ de ∈ db, (de.address, de.key) ≠ p) ∧ hmLookup m p = none := by
  intro db
  induction db with
  | nil => intro m p; simp
  | cons de rest ih =>
    intro m p
    rw [List.foldl_cons, ih, hmLookup_hmInsert]
    by_cases h : (de.address, de.key) = p
    · simp [h]
    · simp only [h, if_false, List.forall_mem_cons]
      tauto

/-- Claim C10: the mget response has exactly one slot per requested
address and key pair, positionally aligned; a slot holds none when an
earlier slot already requested the same pair, and otherwise holds the map
answer for that pair, which is none exactly when no returned row carries
that pair. -/
theorem c10_mget_alignment (db : List DataEntry)
    (pairs : List (String × String)) :
    (mget_entries_handler db pairs).length = pairs.length ∧
    (∀ (i : Nat) (p : String × String), pairs[i]? = some p →
      (mget_entries_handler db pairs)[i]? =
        some (if p ∈ pairs.take i then none
          else hmLookup (buildEntriesMap db) p)) ∧
    (∀ p : String × String, hmLookup (buildEntriesMap db) p = none ↔
      ∀ de ∈ db, (de.address, de.key) ≠ p) := by
  refine ⟨?_, ?_, ?_⟩
  · exact mgetLoop_length pairs (buildEntriesMap db)
  · intro i p h
    convert mgetLoop_get pairs (buildEntriesMap db) i p h using 3
  · intro p
    have := hmLookup_buildEntriesMap_none db [] p
    simpa [buildEntriesMap, hmLookup] using this

/-- The repository answer used by the mget witness: one current row. -/
def c10_db : List DataEntry :=
  [{ address := "a", key := "k", height := 1, value_integer := some 7 }]

/-- The requested pairs used by the mget witness: a duplicate pair and a
pair with no row. -/
def c10_pairs : List (String × String) := [("a", "k"), ("a", "k"), ("b", "k")]

/-- Claim C10 witness: the theorem applied at the duplicated second slot
of a concrete request. -/
theorem c10_mget_alignment_witness :
    (mget_entries_handler c10_db c10_pairs)[1]? =
      some (if ("a", "k") ∈ c10_pairs.take 1 then none
        else hmLookup (buildEntriesMap c10_db) ("a", "k")) :=
  (c10_mget_alignment c10_db c10_pairs).2.1 1 ("a", "k") rfl
